import Mathlib

/-!
Verification of the client-side ingestion-and-resilience layer of the
MushroomEmpire front end.

The development shallowly embeds the core logic of
`src/frontend/components/try/CenterPanel.tsx` (tabular preview parser,
upload intake controller, chat panel submit handler) and of the API client
`chatWithCopilot`.  Pure functions are translated directly; the
event-driven React code is modelled as explicit state-passing steps, one
per synchronous segment between suspension points, so that concrete
interleavings of callbacks can be evaluated.  JavaScript string primitives
(`trim`, `split`, `slice`, ...) are re-implemented structurally over
`List Char` so that every definition evaluates inside the kernel.
-/

namespace MushroomEmpire

/-! ## JavaScript string primitives -/

/-- Whitespace recognised by JavaScript `String.prototype.trim` (the ASCII
part, which is all these inputs use). -/
def jsIsWhitespace (c : Char) : Bool :=
  c = ' ' || c = '\t' || c = '\n' || c = '\r' || c = '\x0b' || c = '\x0c'

/-- JavaScript `s.trim()`. -/
def jsTrim (s : String) : String :=
  ⟨((s.toList.dropWhile jsIsWhitespace).reverse.dropWhile jsIsWhitespace).reverse⟩

/-- JavaScript `s.slice(0, n)` (also models decoding only the first `n`
bytes of an ASCII text). -/
def jsTake (s : String) (n : Nat) : String :=
  ⟨s.toList.take n⟩

/-- JavaScript `s.includes(',')`. -/
def containsComma (s : String) : Bool :=
  s.toList.any (fun c => c = ',')

/-- Splitting a character list at every `'\n'`, as `String.prototype.split`
does (an empty input gives one empty piece, a trailing separator a trailing
empty piece). -/
def splitOnNewline : List Char → List (List Char)
  | [] => [[]]
  | '\n' :: rest => [] :: splitOnNewline rest
  | c :: rest =>
    match splitOnNewline rest with
    | [] => [[c]]
    | p :: ps => (c :: p) :: ps

/-- Dropping one trailing `'\r'`, so that `splitOnNewline` composed with
this models the source's `text.split(/\r?\n/)`. -/
def stripCR (l : List Char) : List Char :=
  match l.reverse with
  | '\r' :: rest => rest.reverse
  | _ => l

/-- ASCII lower-casing of one character (for the `/\.csv$/i` test). -/
def lowerChar (c : Char) : Char :=
  if 'A' ≤ c && c ≤ 'Z' then Char.ofNat (c.toNat + 32) else c

/-- The `/\.csv$/i.test(f.name)` check from `processFile`. -/
def isCSVName (name : String) : Bool :=
  match (name.toList.map lowerChar).reverse with
  | 'v' :: 's' :: 'c' :: '.' :: _ => true
  | _ => false

/-! ## Tabular Preview Parser (`tryParseCSV` / `parseLine` in CenterPanel.tsx) -/

/-- `TablePreviewData` from CenterPanel.tsx: `{ headers, rows, origin: 'csv' }`. -/
structure TablePreviewData where
  headers : List String
  rows : List (List String)
  origin : String
  deriving Repr, DecidableEq

/-- The quote-aware field scanner inside `parseLine`: a `"` toggles quote
mode unless it is an escaped doubled quote inside quote mode (emitted
literally, consuming both characters); a comma outside quote mode ends the
current field. -/
def parseLineAux : List Char → Bool → String → List String
  | [], _, cur => [cur]
  | '"' :: '"' :: rest, true, cur => parseLineAux rest true (cur.push '"')
  | '"' :: rest, inQuotes, cur => parseLineAux rest (!inQuotes) cur
  | ',' :: rest, false, cur => cur :: parseLineAux rest false ""
  | c :: rest, inQuotes, cur => parseLineAux rest inQuotes (cur.push c)

/-- `parseLine` from `tryParseCSV`: tokenize one line and trim every field. -/
def parseLine (line : String) : List String :=
  (parseLineAux line.toList false "").map jsTrim

/-- The non-blank lines `tryParseCSV` retains:
`text.split(/\r?\n/).filter(l => l.trim().length > 0)`. -/
def nonBlankLines (text : String) : List String :=
  (((splitOnNewline text.toList).map stripCR).map (fun l => (⟨l⟩ : String))).filter
    (fun l => (jsTrim l).length > 0)

/-- `tryParseCSV(text, maxRows = 50, maxCols = 40)` from CenterPanel.tsx. -/
def tryParseCSV (text : String) (maxRows : Nat := 50) (maxCols : Nat := 40) :
    Option TablePreviewData :=
  let lines := nonBlankLines text
  if lines.length < 2 then none
  else
    let commaDensity := ((lines.take 10).filter containsComma).length
    if commaDensity < 2 then none
    else
      match (lines.take maxRows).map parseLine with
      | [] => none
      | headers :: rest =>
        let colCount := min headers.length maxCols
        some { headers := headers.take colCount
               rows := rest.map (fun r => r.take colCount)
               origin := "csv" }

/-- C3 counterexample: on `"a,b\n1\n2,3"` the parser keeps the short data
row `["1"]` as-is, so its length 1 differs from the header length 2. -/
theorem tryParseCSV_short_row_cex :
    ¬ (∀ t ∈ tryParseCSV "a,b\n1\n2,3" 50 40, ∀ r ∈ t.rows,
        r.length = t.headers.length) := by
  decide

/-- C3 (amended): every row of a `TablePreviewData` produced by
`tryParseCSV` has at most as many cells as the header row (rows wider than
the column cap are truncated, never wrapped; shorter rows are emitted
as-is). -/
theorem tryParseCSV_row_width_le_headers (text : String) (maxRows maxCols : Nat)
    (t : TablePreviewData) (ht : tryParseCSV text maxRows maxCols = some t) :
    ∀ r ∈ t.rows, r.length ≤ t.headers.length := by
  unfold tryParseCSV at ht
  dsimp only at ht
  split at ht
  · exact absurd ht (by simp)
  · split at ht
    · exact absurd ht (by simp)
    · split at ht
      · exact absurd ht (by simp)
      · rename_i headers rest _
        injection ht with ht
        subst ht
        intro r hr
        simp only [List.mem_map] at hr
        obtain ⟨r0, _, rfl⟩ := hr
        simp only [List.length_take]
        omega

/-- C3 witness: instantiating the amended row-width bound on a concrete
parse where the data row has as many cells as the headers. -/
theorem tryParseCSV_row_width_le_headers_witness :
    (["1", "2"] : List String).length ≤ (["a", "b"] : List String).length :=
  tryParseCSV_row_width_le_headers "a,b\n1,2" 50 40
    ⟨["a", "b"], [["1", "2"]], "csv"⟩ (by decide) ["1", "2"] (by decide)

/-- C6: the tokenizer round-trips the spec's vectors: the plain grid, the
quoted embedded comma with surrounding quotes stripped, and the doubled
quote decoded to a literal quote. -/
theorem tryParseCSV_roundtrip_vectors :
    tryParseCSV "a,b\n1,2\n3,4" 50 40 =
      some ⟨["a", "b"], [["1", "2"], ["3", "4"]], "csv"⟩ ∧
    tryParseCSV "a,b\n\"1,1\",2" 50 40 =
      some ⟨["a", "b"], [["1,1", "2"]], "csv"⟩ ∧
    parseLine "\"He said \"\"hi\"\"\"" = ["He said \"hi\""] := by
  refine ⟨?_, ?_, ?_⟩ <;> decide

/-- C7: `tryParseCSV` rejects (returns `none`) every text with fewer than
2 non-blank lines, and every text in which fewer than 2 of the first 10
non-blank lines contain a comma. -/
theorem tryParseCSV_not_tabular
    (text : String) (maxRows maxCols : Nat) :
    ((nonBlankLines text).length < 2 → tryParseCSV text maxRows maxCols = none) ∧
    (((nonBlankLines text).take 10 |>.filter containsComma).length < 2 →
      tryParseCSV text maxRows maxCols = none) := by
  constructor
  · intro h
    unfold tryParseCSV
    simp [h]
  · intro h
    unfold tryParseCSV
    by_cases h2 : (nonBlankLines text).length < 2 <;> simp [h, h2]

/-- C7 witness: a one-line text and a comma-free three-line text are both
rejected. -/
theorem tryParseCSV_not_tabular_witness :
    tryParseCSV "a,b" 50 40 = none ∧ tryParseCSV "x\ny\nz" 50 40 = none :=
  ⟨(tryParseCSV_not_tabular "a,b" 50 40).1 (by decide),
   (tryParseCSV_not_tabular "x\ny\nz" 50 40).2 (by decide)⟩

/-! ## Resilient Query Client (`chatWithCopilot` in the API client)

The call wires an `AbortController` whose signal is passed to `fetch` and
arms a 120 s timer calling `controller.abort()`.  The network environment
is modelled by an `Option FetchResult`: `none` means no settlement occurs
before the hard timeout, so the timer fires, the abort propagates to the
fetch and the catch maps the resulting `AbortError` to the distinguished
timeout message. -/

/-- Outcome of the underlying `fetch` when it settles before the hard
timeout: a 2xx JSON body with an optional `response` field (plus its
`JSON.stringify` rendering), a non-2xx status with an optional `detail`
field, or a network-level rejection. -/
inductive FetchResult
  | okJson (response : Option String) (raw : String)
  | httpError (detailMsg : Option String) (status : Nat)
  | netFail (msg : String)
  deriving Repr, DecidableEq

instance : DecidableEq (Except String String) := fun a b =>
  match a, b with
  | .ok x, .ok y =>
    if h : x = y then isTrue (congrArg Except.ok h)
    else isFalse (fun hc => h (Except.ok.inj hc))
  | .ok _, .error _ => isFalse (fun hc => Except.noConfusion hc)
  | .error _, .ok _ => isFalse (fun hc => Except.noConfusion hc)
  | .error x, .error y =>
    if h : x = y then isTrue (congrArg Except.error h)
    else isFalse (fun hc => h (Except.error.inj hc))

/-- Observable outcome of one `chatWithCopilot` call: the settled value or
error, whether a network request was issued at all, and whether the
cancellation token aborted the in-flight request. -/
structure ChatCallOutput where
  result : Except String String
  fetchIssued : Bool
  aborted : Bool
  deriving Repr, DecidableEq

/-- The message thrown when the 120 s cancellation timer aborts the call. -/
def chatTimeoutMessage : String := "Request timed out – model may be overloaded."

/-- The generic failure message for a non-2xx response without a usable
`detail` field: `Chat failed (status)`. -/
def chatFailedMsg (status : Nat) : String :=
  "Chat failed (" ++ Nat.repr status ++ ")"

/-- `chatWithCopilot(prompt)` from the API client: reject blank prompts
before any network activity; on abort-by-timeout throw the distinguished
timeout error; on non-2xx throw `detail` or the generic message; on 2xx
return `json.response || JSON.stringify(json)` (an empty string models a
falsy `response` field). -/
def chatWithCopilot (prompt : String) (net : Option FetchResult) : ChatCallOutput :=
  if jsTrim prompt = "" then ⟨.error "Empty prompt", false, false⟩
  else
    match net with
    | none => ⟨.error chatTimeoutMessage, true, true⟩
    | some (.okJson response raw) =>
      ⟨.ok (match response with
            | some r => if r = "" then raw else r
            | none => raw), true, false⟩
    | some (.httpError detailMsg status) =>
      ⟨.error (match detailMsg with
               | some d => if d = "" then chatFailedMsg status else d
               | none => chatFailedMsg status), true, false⟩
    | some (.netFail msg) => ⟨.error msg, true, false⟩

/-- C8: when the hard timeout cancels the call before any settlement,
`chatWithCopilot` aborts the underlying network operation and rejects with
the distinguished timeout-class message, which coincides with no generic
`Chat failed (...)` message and not with the local-validation error. -/
theorem chatWithCopilot_timeout_distinguished (prompt : String)
    (h : jsTrim prompt ≠ "") :
    chatWithCopilot prompt none = ⟨.error chatTimeoutMessage, true, true⟩ ∧
    (∀ s : String, chatTimeoutMessage ≠ "Chat failed (" ++ s ++ ")") ∧
    chatTimeoutMessage ≠ "Empty prompt" := by
  refine ⟨by unfold chatWithCopilot; rw [if_neg h], ?_, by decide⟩
  intro s hs
  have hdata := congrArg String.data hs
  rw [String.data_append, String.data_append] at hdata
  rw [show chatTimeoutMessage.data =
        'R' :: "equest timed out – model may be overloaded.".data from rfl,
      show ("Chat failed (" : String).data = 'C' :: "hat failed (".data from rfl]
    at hdata
  rw [List.cons_append] at hdata
  injection hdata with h1 _
  exact absurd h1 (by decide)

/-- C8 witness: the timeout rejection at the concrete prompt `"hello"`. -/
theorem chatWithCopilot_timeout_distinguished_witness :
    chatWithCopilot "hello" none =
      ⟨.error chatTimeoutMessage, true, true⟩ ∧
    chatTimeoutMessage ≠ "Chat failed (" ++ "500" ++ ")" :=
  ⟨(chatWithCopilot_timeout_distinguished "hello" (by decide)).1,
   (chatWithCopilot_timeout_distinguished "hello" (by decide)).2.1 "500"⟩

/-! ## ChatbotPanel (`handleSubmit` in CenterPanel.tsx)

The React component keeps `messages`, `input`, `isLoading` and
`delayedError` in state.  `handleSubmit` is split at its suspension
points into explicit steps:

* `submitStep` — the synchronous prefix: guard, clear the input, clear
  `delayedError`, append the user message and the pending assistant
  bubble, set `isLoading`;
* `gateStep` — the 4 s gate-timer callback.  The callback reads the
  `delayedError` *closure snapshot taken at the render in which the
  handler ran* (before the `setDelayedError(null)` of this submission), a
  faithful model of the stale-closure capture in the source;
* `settleStep` — the continuation after the promise settles.  Both
  settlement branches call `clearTimeout(delayTimer)` first, so the gate
  callback can only run strictly before settlement; `runSubmit`'s
  `gateFires` flag selects which interleaving occurred.
-/

inductive ChatRole
  | user
  | assistant
  deriving Repr, DecidableEq

/-- `ChatMessage`: `{ role, content, pending?, error? }`. -/
structure ChatMessage where
  role : ChatRole
  content : String
  pending : Bool
  error : Bool
  deriving Repr, DecidableEq

/-- State of the `ChatbotPanel` component. -/
structure ChatState where
  messages : List ChatMessage
  input : String
  isLoading : Bool
  delayedError : Option String
  deriving Repr, DecidableEq

/-- The initial state of the panel (the greeting uses `\x27` for the
apostrophe of the source text). -/
def chatInit : ChatState :=
  { messages := [⟨.assistant,
      "Hi! I\x27m your Privacy Copilot. Ask me about compliance, GDPR articles, or dataset risks.",
      false, false⟩]
    input := ""
    isLoading := false
    delayedError := none }

/-- `showErrorBubble(msg)`: convert every pending message into an error
bubble carrying `msg`. -/
def showErrorBubble (msg : String) (msgs : List ChatMessage) : List ChatMessage :=
  msgs.map (fun m =>
    if m.pending then { m with content := msg, pending := false, error := true } else m)

/-- The success overwrite: every pending message receives
`responseText || 'No response text'` and stops being pending (an empty
string models a falsy `responseText`). -/
def resolveBubble (responseText : String) (msgs : List ChatMessage) : List ChatMessage :=
  msgs.map (fun m =>
    if m.pending then
      { m with content := if responseText = "" then "No response text" else responseText
               pending := false }
    else m)

/-- Result of one settlement attempt of the conversational call. -/
inductive CallResult
  | ok (text : String)
  | err (msg : String)
  deriving Repr, DecidableEq

/-- The primary-then-fallback policy of `handleSubmit`: a failed primary
attempt is retried once through the query-parameter fallback request; if
that also fails, the primary error is rethrown. -/
def settledResult : CallResult → CallResult → CallResult
  | .ok t, _ => .ok t
  | .err _, .ok t => .ok t
  | .err e, .err _ => .err e

/-- The synchronous prefix of `handleSubmit`.  The returned flag records
whether the handler passed the guard, i.e. whether any message was
appended and a network request issued. -/
def submitStep (st : ChatState) : ChatState × Bool :=
  let prompt := jsTrim st.input
  if prompt = "" ∨ st.isLoading then (st, false)
  else
    ({ st with
        input := ""
        delayedError := none
        messages := st.messages ++
          [⟨.user, prompt, false, false⟩, ⟨.assistant, "Thinking…", true, false⟩]
        isLoading := true }, true)

/-- The gate-timer callback: sets the (per-invocation) `canShowError` flag
and renders the *closure snapshot* of `delayedError` if it was non-null at
the render that created the handler. -/
def gateStep (snapshot : Option String) (st : ChatState) : ChatState :=
  match snapshot with
  | some msg => { st with messages := showErrorBubble msg st.messages }
  | none => st

/-- The settlement continuation: on success overwrite every pending bubble
with the resolved text; on failure either render the error (gate already
elapsed) or stash it in `delayedError`; in both cases release
`isLoading`. -/
def settleStep (canShowError : Bool) (res : CallResult) (st : ChatState) : ChatState :=
  match res with
  | .ok t => { st with messages := resolveBubble t st.messages, isLoading := false }
  | .err e =>
    if canShowError then
      { st with messages := showErrorBubble e st.messages, isLoading := false }
    else
      { st with delayedError := some e, isLoading := false }

/-- One full `handleSubmit` cycle.  `gateFires` says whether the 4 s gate
timer ran before the call settled (both settlement paths clear the timer
first, so it cannot run afterwards); `primary` and `fallbackRes` are the
outcomes of the primary and fallback attempts. -/
def runSubmit (st : ChatState) (gateFires : Bool)
    (primary fallbackRes : CallResult) : ChatState :=
  let snapshot := st.delayedError
  match submitStep st with
  | (st1, false) => st1
  | (st1, true) =>
    if gateFires then
      settleStep true (settledResult primary fallbackRes) (gateStep snapshot st1)
    else
      settleStep false (settledResult primary fallbackRes) st1

/-- C9: a blank (empty or whitespace-only) prompt is rejected by the guard
before anything happens: the state is unchanged, nothing is appended, no
request is issued; and `chatWithCopilot` itself also rejects a blank
prompt without issuing a fetch. -/
theorem blank_prompt_no_request (st : ChatState) (p : String)
    (hst : jsTrim st.input = "") (hp : jsTrim p = "") :
    submitStep st = (st, false) ∧
    (∀ net, chatWithCopilot p net = ⟨.error "Empty prompt", false, false⟩) := by
  constructor
  · unfold submitStep
    rw [if_pos (Or.inl hst)]
  · intro net
    unfold chatWithCopilot
    rw [if_pos hp]

/-- C9 witness: the guard at the concrete whitespace-only prompt. -/
theorem blank_prompt_no_request_witness :
    submitStep { chatInit with input := "   " } =
      ({ chatInit with input := "   " }, false) ∧
    chatWithCopilot " " none = ⟨.error "Empty prompt", false, false⟩ :=
  ⟨(blank_prompt_no_request { chatInit with input := "   " } " "
      (by decide) (by decide)).1,
   (blank_prompt_no_request { chatInit with input := "   " } " "
      (by decide) (by decide)).2 none⟩

/-- C4: if the call settles successfully before the gate timer elapses
(including success of the fallback after a failed primary attempt), no
error bubble is ever shown for the request: the run consists of the
append of the user message and the pending bubble followed by its
overwrite with the resolved text, the gate timer never fires, and
`delayedError` ends discarded (`none`). -/
theorem chat_success_before_gate_no_error (st : ChatState)
    (primary fallbackRes : CallResult) (t : String)
    (hres : settledResult primary fallbackRes = .ok t)
    (hprompt : jsTrim st.input ≠ "") (hload : st.isLoading = false)
    (hpend : ∀ m ∈ st.messages, m.pending = false) :
    runSubmit st false primary fallbackRes =
      { messages := st.messages ++
          [⟨.user, jsTrim st.input, false, false⟩,
           ⟨.assistant, if t = "" then "No response text" else t, false, false⟩]
        input := ""
        isLoading := false
        delayedError := none } := by
  have hcond : ¬ (jsTrim st.input = "" ∨ st.isLoading = true) := by
    rintro (h | h)
    · exact hprompt h
    · rw [hload] at h
      cases h
  unfold runSubmit submitStep
  rw [if_neg hcond]
  simp only [hres, settleStep, resolveBubble, List.map_append, List.map_cons,
    List.map_nil]
  have hid : st.messages.map (fun m =>
      if m.pending then
        { m with content := if t = "" then "No response text" else t
                 pending := false }
      else m) = st.messages := by
    conv_rhs => rw [← List.map_id st.messages]
    exact List.map_congr_left (fun m hm => by simp [hpend m hm])
  simp [hid]

/-- C4 witness: a failed primary attempt followed by a successful fallback,
settling before the gate, resolves the bubble with no error. -/
theorem chat_success_before_gate_no_error_witness :
    runSubmit { chatInit with input := "hi" } false
        (.err "boom") (.ok "hello") =
      { messages := chatInit.messages ++
          [⟨.user, "hi", false, false⟩, ⟨.assistant, "hello", false, false⟩]
        input := ""
        isLoading := false
        delayedError := none } := by
  rw [chat_success_before_gate_no_error { chatInit with input := "hi" }
    (.err "boom") (.ok "hello") "hello" rfl (by decide) rfl (by decide)]
  decide

/-- The run refuting C1: a fresh panel, prompt `"hi"`, both the primary and
the fallback attempt fail 1 s after submission — before the 4 s gate — so
the catch clears the gate timer and stashes the error in `delayedError`. -/
def preGateFailureRun : ChatState :=
  runSubmit { chatInit with input := "hi" } false
    (.err "Failed to fetch") (.err "Failed to fetch")

/-- C1 (refuted, code bug): after a settlement that fails before the gate,
the pending bubble still reads `Thinking…` with `pending` set, the error
sits unread in `delayedError`, and `isLoading` is released.  Since the
catch cleared the gate timer, no later event of this request targets the
bubble: it stays pending forever, and neither a resolved nor an error text
was ever written into it. -/
theorem chat_pre_gate_failure_leaves_pending :
    preGateFailureRun.messages =
      chatInit.messages ++
        [⟨.user, "hi", false, false⟩, ⟨.assistant, "Thinking…", true, false⟩] ∧
    preGateFailureRun.delayedError = some "Failed to fetch" ∧
    preGateFailureRun.isLoading = false := by
  decide

/-- The state refuting C10: after the pre-gate failure above released
`isLoading` with its bubble still pending, the user types and submits a
second prompt, whose synchronous prefix appends a second pending bubble. -/
def twoPendingState : ChatState :=
  (submitStep { preGateFailureRun with input := "again" }).1

/-- C10 counterexample: a reachable state with two pending assistant
messages. -/
theorem two_pending_bubbles_cex :
    ¬ (twoPendingState.messages.countP (fun m => m.pending) ≤ 1) := by
  decide

/-- C10 (amended): submissions while a request is in flight are no-ops,
and the success and post-gate-failure settlement paths turn every pending
message non-pending before `isLoading` is released; but a pre-gate failure
releases `isLoading` with the bubble still pending, so two pending bubbles
are reachable (see the counterexample). -/
theorem chat_loading_guard_and_settle_clears_pending :
    (∀ st : ChatState, st.isLoading = true → submitStep st = (st, false)) ∧
    (∀ (st : ChatState) (canShow : Bool) (res : CallResult),
      ((∃ t, res = .ok t) ∨ canShow = true) →
      (∀ m ∈ (settleStep canShow res st).messages, m.pending = false) ∧
      (settleStep canShow res st).isLoading = false) := by
  constructor
  · intro st h
    unfold submitStep
    rw [if_pos (Or.inr (by rw [h]))]
  · rintro st canShow res h
    match res with
    | .ok t =>
      refine ⟨?_, rfl⟩
      intro m hm
      simp only [settleStep, resolveBubble, List.mem_map] at hm
      obtain ⟨m0, _, rfl⟩ := hm
      by_cases hp : m0.pending <;> simp [hp]
    | .err e =>
      have hcanShow : canShow = true := by
        rcases h with ⟨t, ht⟩ | h
        · cases ht
        · exact h
      subst hcanShow
      refine ⟨?_, rfl⟩
      intro m hm
      simp only [settleStep, if_pos, showErrorBubble, List.mem_map] at hm
      obtain ⟨m0, _, rfl⟩ := hm
      by_cases hp : m0.pending <;> simp [hp]

/-- C10 witness: the in-flight guard at a concrete loading state, and a
post-gate failure settlement releasing the loading flag on the
pre-gate-failure state. -/
theorem chat_loading_guard_witness :
    submitStep { chatInit with input := "hi", isLoading := true } =
      ({ chatInit with input := "hi", isLoading := true }, false) ∧
    (settleStep true (.err "boom") preGateFailureRun).isLoading = false :=
  ⟨chat_loading_guard_and_settle_clears_pending.1 _ rfl,
   (chat_loading_guard_and_settle_clears_pending.2 preGateFailureRun true
     (.err "boom") (Or.inr rfl)).2⟩

/-! ## Upload Intake Controller (`processFile` in CenterPanel.tsx)

`processFile` dispatches on the declared file size.  The large path runs a
synchronous prefix (placeholder metadata), then spawns a head-slice
`FileReader` whose `onload` callback refines the preview, plus a streaming
progress pass.  The small path spawns a `FileReader` over the whole file
whose `onload` sets the metadata and the table preview.  There is no
generation counter or liveness flag anywhere in `processFile`: every
callback mutates the component state unconditionally on arrival.  Each
synchronous segment is modelled as one step below, so traces of
interleaved callbacks can be evaluated directly. -/

/-- The declared properties of a selected `File`: `content` models the byte
stream (ASCII text), `size` the `File.size` property. -/
structure FileData where
  name : String
  size : Nat
  type : String
  content : String
  deriving Repr, DecidableEq

/-- `UploadedFileMeta` from CenterPanel.tsx. -/
structure UploadedFileMeta where
  name : String
  size : Nat
  type : String
  contentPreview : String
  deriving Repr, DecidableEq

/-- The upload-related state of the `CenterPanel` component. -/
structure PanelState where
  fileMeta : Option UploadedFileMeta
  uploadedFile : Option FileData
  progress : Nat
  tablePreview : Option TablePreviewData
  deriving Repr, DecidableEq

/-- The component state before any upload. -/
def initialPanel : PanelState := ⟨none, none, 0, none⟩

/-- `f.type || "unknown"`. -/
def metaType (f : FileData) : String :=
  if f.type = "" then "unknown" else f.type

/-- The head-slice budget: `PREVIEW_BYTES = 64 * 1024`. -/
def PREVIEW_BYTES : Nat := 64 * 1024

/-- The placeholder `contentPreview` of the large path; the interpolated
`Math.round(PREVIEW_BYTES / 1024)` evaluates to `64`. -/
def placeholderPreview : String := "Loading partial preview (first 64KB)..."

/-- Synchronous prefix of the large-file path: reset progress, remember the
file, install placeholder metadata, drop any previous table preview. -/
def largeStart (f : FileData) (st : PanelState) : PanelState :=
  { st with progress := 0
            uploadedFile := some f
            fileMeta := some ⟨f.name, f.size, metaType f, placeholderPreview⟩
            tablePreview := none }

/-- The decoded first `PREVIEW_BYTES` of the file (`f.slice(0, PREVIEW_BYTES)`
read and decoded). -/
def headSliceText (f : FileData) : String :=
  jsTake f.content PREVIEW_BYTES

/-- The large path's head-slice `onload` callback: refine `contentPreview`
on whatever metadata is currently installed (a no-op only if it is
`null`), and unconditionally overwrite the table preview with the parse of
this file's head text. -/
def headLoadCallback (f : FileData) (st : PanelState) : PanelState :=
  let text := headSliceText f
  { st with
      fileMeta := st.fileMeta.map (fun prev =>
        { prev with contentPreview := jsTake text 4000 })
      tablePreview := if isCSVName f.name then tryParseCSV text 50 40 else none }

/-- Synchronous prefix of the small-file path. -/
def smallStart (f : FileData) (st : PanelState) : PanelState :=
  { st with progress := 0, uploadedFile := some f }

/-- The small path's `onload` callback: full decode, fresh metadata, table
preview from the whole text, completion progress. -/
def smallLoadCallback (f : FileData) (st : PanelState) : PanelState :=
  let text := f.content
  { st with
      fileMeta := some ⟨f.name, f.size, metaType f, jsTake text 4000⟩
      tablePreview := if isCSVName f.name then tryParseCSV text 50 40 else none
      progress := 100 }

/-- The size dispatch at the top of `processFile` (threshold 1 MiB). -/
def processFileStart (f : FileData) (st : PanelState) : PanelState :=
  if f.size > 1024 * 1024 then largeStart f st else smallStart f st

/-- The Clear button's `reset()`. -/
def clearUpload (st : PanelState) : PanelState :=
  { st with fileMeta := none, uploadedFile := none, progress := 0,
            tablePreview := none }

/-- A large CSV upload whose head-slice read is still in flight when the
user clears and picks a new file. -/
def staleOld : FileData := ⟨"old.csv", 2 * 1024 * 1024, "text/csv", "x,y\n1,2\n3,4"⟩

/-- The fresh small CSV picked after the clear. -/
def freshNew : FileData := ⟨"new.csv", 30, "text/csv", "p,q\n5,6\n7,8"⟩

/-- The interleaving refuting C2: start processing `staleOld` (large path),
clear, start and finish processing `freshNew` (small path), then
`staleOld`'s head-slice callback finally arrives. -/
def staleClobberRun : PanelState :=
  headLoadCallback staleOld
    (smallLoadCallback freshNew
      (processFileStart freshNew
        (clearUpload
          (processFileStart staleOld initialPanel))))

/-- C2 (refuted, code bug): with no liveness flag in `processFile`, the
superseded head-slice callback is not a no-op — it overwrites the fresh
file's content preview and table preview with the cleared file's data,
which the panel then displays under the fresh file's name. -/
theorem stale_head_callback_clobbers_fresh_file :
    staleClobberRun.fileMeta =
      some ⟨"new.csv", 30, "text/csv", "x,y\n1,2\n3,4"⟩ ∧
    staleClobberRun.tablePreview =
      some ⟨["x", "y"], [["1", "2"], ["3", "4"]], "csv"⟩ ∧
    staleClobberRun.tablePreview ≠ tryParseCSV freshNew.content 50 40 := by
  decide

/-! ## Streaming Progress Tracker

Three reporting strategies from `processFile`:
* the true streaming pass over `f.stream()` (large path);
* `FileReader` `onprogress` events with `lengthComputable` set;
* the synthesized `+5` heuristic when length is not computable.

`Math.round(x)` for non-negative `x` is `⌊x + 1/2⌋`, so for naturals
`Math.round(loaded / total * 100)` is `(2 * (100 * loaded) + total) / (2 * total)`
in exact arithmetic. -/

/-- `Math.min(100, Math.round((loaded / total) * 100))`. -/
def jsRoundPct (loaded total : Nat) : Nat :=
  min 100 ((2 * (100 * loaded) + total) / (2 * total))

/-- `const total = f.size || 1`. -/
def streamTotal (size : Nat) : Nat :=
  if size = 0 then 1 else size

/-- Running totals of consumed bytes after each chunk. -/
def prefixTotals (acc : Nat) : List Nat → List Nat
  | [] => []
  | c :: cs => (acc + c) :: prefixTotals (acc + c) cs

/-- Every value `setProgress` receives on the streaming path of one upload:
the initial `setProgress(0)`, one report per chunk, and the forced final
`setProgress(100)` once the reader is exhausted. -/
def streamReports (size : Nat) (chunks : List Nat) : List Nat :=
  0 :: ((prefixTotals 0 chunks).map
    (fun loaded => jsRoundPct loaded (streamTotal size)) ++ [100])

/-- Events a `FileReader` delivers to the progress handlers. -/
inductive FileReaderEvent
  | progressComputable (loaded total : Nat)
  | progressIndeterminate
  | loadEnd
  | errored
  deriving Repr, DecidableEq

/-- The `FileReader` progress-state update of `processFile`: computable
events report the rounded percentage, indeterminate ones bump the counter
by 5 while below 90, load completion snaps to 100, an error resets to 0. -/
def fileReaderStep (p : Nat) : FileReaderEvent → Nat
  | .progressComputable loaded total => jsRoundPct loaded total
  | .progressIndeterminate => if p < 90 then p + 5 else p
  | .loadEnd => 100
  | .errored => 0

/-- Every value the progress state takes on a `FileReader`-driven upload,
starting from the initial `setProgress(0)`. -/
def fileReaderReports (events : List FileReaderEvent) : List Nat :=
  List.scanl fileReaderStep 0 events

/-- Reports of an upload whose reader delivers length-computable progress
events (shared declared total) and then completes. -/
def fileReaderComputableReports (total : Nat) (loadeds : List Nat) : List Nat :=
  fileReaderReports
    ((loadeds.map (fun loaded => .progressComputable loaded total)) ++ [.loadEnd])

/-- Reports of an upload whose reader delivers `n` indeterminate progress
ticks and then completes. -/
def fileReaderHeuristicReports (n : Nat) : List Nat :=
  fileReaderReports (List.replicate n .progressIndeterminate ++ [.loadEnd])

/-- C5 counterexample: a read error resets progress to 0, so the report
sequence of an upload whose read errors after reaching 40 % is not
non-decreasing. -/
theorem progress_error_reset_cex :
    fileReaderReports [.progressComputable 40 100, .errored] = [0, 40, 0] ∧
    ¬ List.Chain' (· ≤ ·)
        (fileReaderReports [.progressComputable 40 100, .errored]) := by
  refine ⟨by decide, ?_⟩
  intro h
  rw [show fileReaderReports [.progressComputable 40 100, .errored] = [0, 40, 0]
    from by decide] at h
  exact absurd (List.chain'_cons.mp (List.chain'_cons.mp h).2).1 (by decide)

/-- Monotone bounded reports stay monotone and bounded when wrapped between
the initial 0 and the forced final 100, and then end at exactly 100. -/
theorem zero_append_hundred_chain (l : List Nat)
    (hc : List.Chain' (· ≤ ·) l) (hb : ∀ x ∈ l, x ≤ 100) :
    List.Chain' (· ≤ ·) (0 :: (l ++ [100])) ∧
    (∀ r ∈ 0 :: (l ++ [100]), r ≤ 100) ∧
    (0 :: (l ++ [100])).getLast? = some 100 := by
  refine ⟨?_, ?_, ?_⟩
  · rw [List.chain'_cons']
    refine ⟨fun h _ => Nat.zero_le h, ?_⟩
    rw [List.chain'_append]
    refine ⟨hc, List.chain'_singleton 100, ?_⟩
    intro x hx y hy
    simp only [List.head?_cons, Option.mem_def, Option.some.injEq] at hy
    subst hy
    exact hb x (List.mem_of_mem_getLast? hx)
  · intro r hr
    rcases List.mem_cons.mp hr with h | h
    · omega
    · rcases List.mem_append.mp h with h | h
      · exact hb r h
      · simp only [List.mem_singleton] at h
        omega
  · rw [show (0 :: (l ++ [100])) = (0 :: l) ++ [100] from rfl]
    exact List.getLast?_concat _

/-- A `scanl` always starts with its initial value. -/
theorem scanl_head {α β : Type} (f : β → α → β) (b : β) (l : List α) :
    (List.scanl f b l).head? = some b := by
  cases l <;> simp [List.scanl]

/-- A `scanl` is never empty. -/
theorem scanl_ne_nil {α β : Type} (f : β → α → β) (b : β) (l : List α) :
    List.scanl f b l ≠ [] := by
  cases l <;> simp [List.scanl]

/-- Percentages are monotone in the consumed bytes. -/
theorem jsRoundPct_mono (total : Nat) {a b : Nat} (h : a ≤ b) :
    jsRoundPct a total ≤ jsRoundPct b total := by
  unfold jsRoundPct
  have : (2 * (100 * a) + total) / (2 * total) ≤
      (2 * (100 * b) + total) / (2 * total) :=
    Nat.div_le_div_right (by omega)
  omega

/-- Running chunk totals are non-decreasing. -/
theorem prefixTotals_chain (chunks : List Nat) :
    ∀ acc, List.Chain' (· ≤ ·) (prefixTotals acc chunks) := by
  induction chunks with
  | nil => intro acc; exact List.chain'_nil
  | cons c cs ih =>
    intro acc
    rw [prefixTotals, List.chain'_cons']
    refine ⟨?_, ih (acc + c)⟩
    intro h hh
    cases cs with
    | nil => simp [prefixTotals] at hh
    | cons d ds =>
      simp only [prefixTotals, List.head?_cons, Option.mem_def,
        Option.some.injEq] at hh
      omega

/-- C5 (amended): in the absence of a read error, every strategy of the
progress tracker reports a non-decreasing sequence of percentages within
`[0, 100]` ending at exactly 100 once the source is exhausted — the
streaming pass unconditionally, the length-computable `FileReader` pass
whenever the browser delivers non-decreasing loaded-byte counts, and the
synthesized heuristic pass unconditionally.  (A read error resets progress
to 0; see the counterexample.) -/
theorem progress_monotone_without_error :
    (∀ (size : Nat) (chunks : List Nat),
      List.Chain' (· ≤ ·) (streamReports size chunks) ∧
      (∀ r ∈ streamReports size chunks, r ≤ 100) ∧
      (streamReports size chunks).getLast? = some 100) ∧
    (∀ (total : Nat) (loadeds : List Nat), List.Chain' (· ≤ ·) loadeds →
      List.Chain' (· ≤ ·) (fileReaderComputableReports total loadeds) ∧
      (∀ r ∈ fileReaderComputableReports total loadeds, r ≤ 100) ∧
      (fileReaderComputableReports total loadeds).getLast? = some 100) ∧
    (∀ n : Nat,
      List.Chain' (· ≤ ·) (fileReaderHeuristicReports n) ∧
      (∀ r ∈ fileReaderHeuristicReports n, r ≤ 100) ∧
      (fileReaderHeuristicReports n).getLast? = some 100) := by
  have hscan : ∀ (total : Nat) (loadeds : List Nat),
      fileReaderComputableReports total loadeds =
        0 :: ((loadeds.map (fun loaded => jsRoundPct loaded total)) ++ [100]) := by
    intro total loadeds
    unfold fileReaderComputableReports fileReaderReports
    suffices h : ∀ (p : Nat) (ls : List Nat),
        List.scanl fileReaderStep p
          ((ls.map (fun loaded => FileReaderEvent.progressComputable loaded total))
            ++ [.loadEnd]) =
          p :: ((ls.map (fun loaded => jsRoundPct loaded total)) ++ [100]) by
      exact h 0 loadeds
    intro p ls
    induction ls generalizing p with
    | nil => simp [List.scanl, fileReaderStep]
    | cons a as ih => simp [List.scanl, fileReaderStep, ih]
  refine ⟨?_, ?_, ?_⟩
  · intro size chunks
    unfold streamReports
    refine zero_append_hundred_chain _ ?_ ?_
    · rw [List.chain'_map]
      exact (prefixTotals_chain chunks 0).imp
        (fun a b h => jsRoundPct_mono (streamTotal size) h)
    · intro x hx
      simp only [List.mem_map] at hx
      obtain ⟨loaded, _, rfl⟩ := hx
      exact Nat.min_le_left _ _
  · intro total loadeds hmono
    rw [hscan total loadeds]
    refine zero_append_hundred_chain _ ?_ ?_
    · rw [List.chain'_map]
      exact hmono.imp (fun a b h => jsRoundPct_mono total h)
    · intro x hx
      simp only [List.mem_map] at hx
      obtain ⟨loaded, _, rfl⟩ := hx
      exact Nat.min_le_left _ _
  · intro n
    unfold fileReaderHeuristicReports fileReaderReports
    suffices h : ∀ (m : Nat) (p : Nat), p ≤ 100 →
        List.Chain' (· ≤ ·)
          (List.scanl fileReaderStep p
            (List.replicate m .progressIndeterminate ++ [.loadEnd])) ∧
        (∀ r ∈ List.scanl fileReaderStep p
            (List.replicate m .progressIndeterminate ++ [.loadEnd]), r ≤ 100) ∧
        (List.scanl fileReaderStep p
            (List.replicate m .progressIndeterminate ++ [.loadEnd])).getLast? =
          some 100 by
      exact h n 0 (by omega)
    intro m
    induction m with
    | zero =>
      intro p hp
      have hl : List.scanl fileReaderStep p
          (List.replicate 0 .progressIndeterminate ++ [.loadEnd]) = [p, 100] := by
        simp [List.scanl, fileReaderStep]
      rw [hl]
      refine ⟨List.chain'_pair.mpr hp, ?_, rfl⟩
      intro r hr
      rcases List.mem_cons.mp hr with h | h
      · omega
      · simp only [List.mem_singleton] at h
        omega
    | succ k ih =>
      intro p hp
      have hstep : fileReaderStep p .progressIndeterminate ≤ 100 := by
        simp only [fileReaderStep]
        split <;> omega
      have hge : p ≤ fileReaderStep p .progressIndeterminate := by
        simp only [fileReaderStep]
        split <;> omega
      obtain ⟨ihc, ihb, ihl⟩ := ih (fileReaderStep p .progressIndeterminate) hstep
      have hl : List.scanl fileReaderStep p
          (List.replicate (k + 1) .progressIndeterminate ++ [.loadEnd]) =
            p :: List.scanl fileReaderStep
              (fileReaderStep p .progressIndeterminate)
              (List.replicate k .progressIndeterminate ++ [.loadEnd]) := by
        rw [List.replicate_succ, List.cons_append, List.scanl]
      rw [hl]
      refine ⟨?_, ?_, ?_⟩
      · rw [List.chain'_cons']
        refine ⟨?_, ihc⟩
        intro h hh
        rw [scanl_head] at hh
        simp only [Option.mem_def, Option.some.injEq] at hh
        omega
      · intro r hr
        rcases List.mem_cons.mp hr with h | h
        · omega
        · exact ihb r h
      · rcases hne : List.scanl fileReaderStep
            (fileReaderStep p .progressIndeterminate)
            (List.replicate k .progressIndeterminate ++ [.loadEnd]) with _ | ⟨a, as⟩
        · exact absurd hne (scanl_ne_nil _ _ _)
        · rw [hne] at ihl ⊢
          rw [List.getLast?_cons_cons]
          exact ihl

/-- C5 witness: the computable-events strategy on a concrete monotone
loaded sequence. -/
theorem progress_monotone_without_error_witness :
    List.Chain' (· ≤ ·) (fileReaderComputableReports 100 [10, 50, 100]) ∧
    (fileReaderComputableReports 100 [10, 50, 100]).getLast? = some 100 :=
  ⟨(progress_monotone_without_error.2.1 100 [10, 50, 100]
      (List.chain'_cons.mpr ⟨by omega,
        List.chain'_cons.mpr ⟨by omega, List.chain'_singleton _⟩⟩)).1,
   (progress_monotone_without_error.2.1 100 [10, 50, 100]
      (List.chain'_cons.mpr ⟨by omega,
        List.chain'_cons.mpr ⟨by omega, List.chain'_singleton _⟩⟩)).2.2⟩

end MushroomEmpire
